import Mathlib

/-!
# libtnb/sqlite: the driver wrapper of `driver.go`

A shallow embedding of `driver.go` and the properties of its connection-string
normalisation and of its connector / connection / statement / cursor wrappers.
-/

namespace Sqlite

/-! ## Strings -/

/-- A Go string is a finite sequence of bytes.  It is embedded as the list of its
bytes, each byte written as the character with that code, so that ASCII literals
of the source read the same here.  Concatenation is list append. -/
abbrev GoString := List Char

namespace strings

/-- Go `strings.HasPrefix(s, pre)`. -/
def HasPrefix (s pre : GoString) : Bool := pre.isPrefixOf s

/-- Go `strings.Contains(s, substr)`: `substr` occurs at some position of `s`. -/
def Contains : GoString → GoString → Bool
  | [], substr => substr.isEmpty
  | c :: s, substr => HasPrefix (c :: s) substr || Contains s substr

end strings

/-- The number of positions of `s` at which `sub` occurs as a substring. -/
def occurrences (sub : GoString) : GoString → Nat
  | [] => if sub.isEmpty then 1 else 0
  | c :: s => (if strings.HasPrefix (c :: s) sub then 1 else 0) + occurrences sub s

/-! ## `injectDSNParams` (driver.go, lines 53-67) -/

/-- One iteration of the loop body of `injectDSNParams`, for the flag `param`. -/
def injectDSNParams.step (dsn param : GoString) : GoString :=
  if strings.Contains dsn param then dsn
  else if strings.Contains dsn "?".toList then dsn ++ ("&".toList ++ param ++ "=1".toList)
  else dsn ++ ("?".toList ++ param ++ "=1".toList)

/-- The function `injectDSNParams`: the loop over the two flag keys, in the order of
the source. -/
def injectDSNParams (dsn : GoString) : GoString :=
  ["_texttotime".toList, "_inttotime".toList].foldl injectDSNParams.step dsn

/-! ### The parameter section of a connection string -/

/-- The part of a connection string after its first `?`, when there is one. -/
def paramSection : GoString → Option GoString
  | [] => none
  | c :: s => if c = '?' then some s else paramSection s

/-- Split at every occurrence of the separator `sep`. -/
def splitAt (sep : Char) : GoString → List GoString
  | [] => [[]]
  | c :: s =>
    if c = sep then [] :: splitAt sep s
    else
      match splitAt sep s with
      | [] => [[c]]
      | p :: ps => (c :: p) :: ps

/-- The keys of the parameters of a connection string: the parameter section is
split at `&` and each piece is cut at its first `=`. -/
def paramKeys (dsn : GoString) : List GoString :=
  match paramSection dsn with
  | none => []
  | some q => (splitAt '&' q).map (fun p => p.takeWhile (fun c => c != '='))

/-! ## The `database/sql/driver` values the wrappers pass around -/

/-- A `reflect.Type`: the types a driver reports as the scan type of a column. -/
inductive ReflectType
  | timeTime
  | string
  | int64
  | float64
  | bool
  | bytes
  | other (name : GoString)
  deriving DecidableEq

/-- Line 12: `var timeType = reflect.TypeOf(time.Time{})`. -/
def timeType : ReflectType := ReflectType.timeTime

/-- A `driver.Value`.  The wrappers move values around and never look inside. -/
inductive Value
  | null
  | int64 (v : Int)
  | bool (b : Bool)
  | bytes (b : List Nat)
  | text (s : GoString)
  | time (unixNano : Int)
  deriving DecidableEq

/-- A `driver.NamedValue`. -/
structure NamedValue where
  Name : GoString
  Ordinal : Int
  Value : Value
  deriving DecidableEq

/-- A `context.Context`; the wrappers hand it on unchanged. -/
structure Context where
  id : Nat
  deriving DecidableEq

/-- A Go `error` value that is not nil; `ErrSkip` is the sentinel `driver.ErrSkip`. -/
inductive Error
  | ErrSkip
  | ErrBadConn
  | other (msg : GoString)
  deriving DecidableEq

/-- A `driver.Result`. -/
structure Result where
  LastInsertId : Int
  RowsAffected : Int
  deriving DecidableEq

/-- A `driver.Rows` of the underlying driver, with the two optional interfaces the
scan-type query probes: a field is `none` when the cursor does not implement the
interface, so the type assertion `r.rows.(driver.X)` fails. -/
structure Rows where
  Columns : List GoString
  ColumnTypeDatabaseTypeName : Option (Int → GoString)
  ColumnTypeScanType : Option (Int → ReflectType)

/-- A `driver.Stmt` of the underlying driver over the driver state `σ`.  A method
takes the state and returns its Go result `(value, err)` as an `Except` (a value
with a nil error, or an error that is not nil), with the state after the call.
The optional interfaces `driver.StmtExecContext` and
`driver.StmtQueryContext` are `none` when not implemented. -/
structure Stmt (σ : Type) where
  Exec : List Value → σ → Except Error Result × σ
  Query : List Value → σ → Except Error Rows × σ
  ExecContext : Option (Context → List NamedValue → σ → Except Error Result × σ)
  QueryContext : Option (Context → List NamedValue → σ → Except Error Rows × σ)

/-- A `driver.Conn` of the underlying driver, with its optional interfaces
`driver.ConnPrepareContext`, `driver.QueryerContext`, `driver.ExecerContext`,
`driver.Pinger`, `driver.SessionResetter` and `driver.Validator`. -/
structure Conn (σ : Type) where
  Prepare : GoString → σ → Except Error (Stmt σ) × σ
  PrepareContext : Option (Context → GoString → σ → Except Error (Stmt σ) × σ)
  QueryContext :
    Option (Context → GoString → List NamedValue → σ → Except Error Rows × σ)
  ExecContext :
    Option (Context → GoString → List NamedValue → σ → Except Error Result × σ)
  Ping : Option (Context → σ → Option Error × σ)
  ResetSession : Option (Context → σ → Option Error × σ)
  IsValid : Option (σ → Bool × σ)

/-- A method call a wrapper makes on the handle it wraps, with its arguments. -/
inductive Call
  | ConnPrepare (query : GoString)
  | ConnPrepareContext (ctx : Context) (query : GoString)
  | ConnQueryContext (ctx : Context) (query : GoString) (args : List NamedValue)
  | ConnExecContext (ctx : Context) (query : GoString) (args : List NamedValue)
  | ConnPing (ctx : Context)
  | ConnResetSession (ctx : Context)
  | ConnIsValid
  | StmtExec (args : List Value)
  | StmtQuery (args : List Value)
  | StmtExecContext (ctx : Context) (args : List NamedValue)
  | StmtQueryContext (ctx : Context) (args : List NamedValue)
  deriving DecidableEq

/-- The world a wrapper method runs in: the state of the underlying driver and the
log of the calls made on underlying handles so far, oldest first. -/
structure World (σ : Type) where
  drv : σ
  calls : List Call

/-- Make the call `c` on an underlying handle: run the method `f` on the driver
state and append `c` to the log. -/
def World.call {σ α : Type} (w : World σ) (c : Call) (f : σ → α × σ) : α × World σ :=
  ((f w.drv).1, { drv := (f w.drv).2, calls := w.calls ++ [c] })

/-! ## The wrappers (driver.go, lines 81-247) -/

/-- Lines 220-222: `type wrappedRows struct { rows driver.Rows }`. -/
structure wrappedRows where
  rows : Rows

/-- Lines 161-163: `type wrappedStmt struct { stmt driver.Stmt }`. -/
structure wrappedStmt (σ : Type) where
  stmt : Stmt σ

/-- Lines 83-85: `type wrappedConn struct { conn driver.Conn }`. -/
structure wrappedConn (σ : Type) where
  conn : Conn σ

/-- A value of interface type `driver.Rows` as a caller of the wrappers receives
it: its dynamic type is `*wrappedRows`, or it is a cursor of the underlying
driver handed over as it is. -/
inductive RowsValue
  | raw (rows : Rows)
  | wrapped (r : wrappedRows)

/-- A value of interface type `driver.Stmt` as a caller of the wrappers receives
it: a `*wrappedStmt`, or a statement of the underlying driver as it is. -/
inductive StmtValue (σ : Type)
  | raw (stmt : Stmt σ)
  | wrapped (s : wrappedStmt σ)

/-- Lines 87-93: `wrappedConn.Prepare`. -/
def wrappedConn.Prepare {σ : Type} (c : wrappedConn σ) (query : GoString) (w : World σ) :
    Except Error (StmtValue σ) × World σ :=
  match w.call (Call.ConnPrepare query) (c.conn.Prepare query) with
  | (Except.error err, w1) => (Except.error err, w1)
  | (Except.ok s, w1) => (Except.ok (StmtValue.wrapped { stmt := s }), w1)

/-- Lines 103-112: `wrappedConn.PrepareContext`. -/
def wrappedConn.PrepareContext {σ : Type} (c : wrappedConn σ) (ctx : Context)
    (query : GoString) (w : World σ) : Except Error (StmtValue σ) × World σ :=
  match c.conn.PrepareContext with
  | some cc =>
    match w.call (Call.ConnPrepareContext ctx query) (cc ctx query) with
    | (Except.error err, w1) => (Except.error err, w1)
    | (Except.ok s, w1) => (Except.ok (StmtValue.wrapped { stmt := s }), w1)
  | none => c.Prepare query w

/-- Lines 114-123: `wrappedConn.QueryContext`. -/
def wrappedConn.QueryContext {σ : Type} (c : wrappedConn σ) (ctx : Context)
    (query : GoString) (args : List NamedValue) (w : World σ) :
    Except Error RowsValue × World σ :=
  match c.conn.QueryContext with
  | some qc =>
    match w.call (Call.ConnQueryContext ctx query args) (qc ctx query args) with
    | (Except.error err, w1) => (Except.error err, w1)
    | (Except.ok rows, w1) => (Except.ok (RowsValue.wrapped { rows := rows }), w1)
  | none => (Except.error Error.ErrSkip, w)

/-- Lines 125-130: `wrappedConn.ExecContext`. -/
def wrappedConn.ExecContext {σ : Type} (c : wrappedConn σ) (ctx : Context)
    (query : GoString) (args : List NamedValue) (w : World σ) :
    Except Error Result × World σ :=
  match c.conn.ExecContext with
  | some ec => w.call (Call.ConnExecContext ctx query args) (ec ctx query args)
  | none => (Except.error Error.ErrSkip, w)

/-- Lines 139-144: `wrappedConn.Ping`; the result is the returned `error`, `none`
for nil. -/
def wrappedConn.Ping {σ : Type} (c : wrappedConn σ) (ctx : Context) (w : World σ) :
    Option Error × World σ :=
  match c.conn.Ping with
  | some p => w.call (Call.ConnPing ctx) (p ctx)
  | none => (none, w)

/-- Lines 146-151: `wrappedConn.ResetSession`. -/
def wrappedConn.ResetSession {σ : Type} (c : wrappedConn σ) (ctx : Context)
    (w : World σ) : Option Error × World σ :=
  match c.conn.ResetSession with
  | some rs => w.call (Call.ConnResetSession ctx) (rs ctx)
  | none => (none, w)

/-- Lines 153-158: `wrappedConn.IsValid`. -/
def wrappedConn.IsValid {σ : Type} (c : wrappedConn σ) (w : World σ) : Bool × World σ :=
  match c.conn.IsValid with
  | some v => w.call Call.ConnIsValid v
  | none => (true, w)

/-- Lines 173-175: `wrappedStmt.Exec`. -/
def wrappedStmt.Exec {σ : Type} (s : wrappedStmt σ) (args : List Value) (w : World σ) :
    Except Error Result × World σ :=
  w.call (Call.StmtExec args) (s.stmt.Exec args)

/-- Lines 177-183: `wrappedStmt.Query`. -/
def wrappedStmt.Query {σ : Type} (s : wrappedStmt σ) (args : List Value) (w : World σ) :
    Except Error RowsValue × World σ :=
  match w.call (Call.StmtQuery args) (s.stmt.Query args) with
  | (Except.error err, w1) => (Except.error err, w1)
  | (Except.ok rows, w1) => (Except.ok (RowsValue.wrapped { rows := rows }), w1)

/-- Lines 189-192 and 202-205: `values := make([]driver.Value, len(args))`, then
`for i, arg := range args { values[i] = arg.Value }`.  The fresh slice holds the
nil value at every index. -/
def positionalValues (args : List NamedValue) : List Value :=
  args.enum.foldl (fun values p => values.set p.1 p.2.Value)
    (List.replicate args.length Value.null)

/-- Lines 185-194: `wrappedStmt.ExecContext`. -/
def wrappedStmt.ExecContext {σ : Type} (s : wrappedStmt σ) (ctx : Context)
    (args : List NamedValue) (w : World σ) : Except Error Result × World σ :=
  match s.stmt.ExecContext with
  | some sc => w.call (Call.StmtExecContext ctx args) (sc ctx args)
  | none =>
    let values := positionalValues args
    w.call (Call.StmtExec values) (s.stmt.Exec values)

/-- Lines 196-212: `wrappedStmt.QueryContext`. -/
def wrappedStmt.QueryContext {σ : Type} (s : wrappedStmt σ) (ctx : Context)
    (args : List NamedValue) (w : World σ) : Except Error RowsValue × World σ :=
  let r : Except Error Rows × World σ :=
    match s.stmt.QueryContext with
    | some sc => w.call (Call.StmtQueryContext ctx args) (sc ctx args)
    | none =>
      let values := positionalValues args
      w.call (Call.StmtQuery values) (s.stmt.Query values)
  match r with
  | (Except.error err, w1) => (Except.error err, w1)
  | (Except.ok rows, w1) => (Except.ok (RowsValue.wrapped { rows := rows }), w1)

/-- Lines 236-247: `wrappedRows.ColumnTypeScanType`.  The `switch` returns from the
function in its one case and falls out of the `if` otherwise. -/
def wrappedRows.ColumnTypeScanType (r : wrappedRows) (index : Int) : ReflectType :=
  let early : Option ReflectType :=
    match r.rows.ColumnTypeDatabaseTypeName with
    | some ct =>
      let name := ct index
      if name = "DATE".toList ∨ name = "DATETIME".toList ∨ name = "TIMESTAMP".toList
          ∨ name = "TIME".toList then
        some timeType
      else none
    | none => none
  match early with
  | some t => t
  | none =>
    match r.rows.ColumnTypeScanType with
    | some ct => ct index
    | none => ReflectType.string

/-- Lines 249-254: `wrappedRows.ColumnTypeDatabaseTypeName`. -/
def wrappedRows.ColumnTypeDatabaseTypeName (r : wrappedRows) (index : Int) : GoString :=
  match r.rows.ColumnTypeDatabaseTypeName with
  | some ct => ct index
  | none => []

/-! ### The reference definition of the scan type -/

/-- The four recognised temporal type names. -/
def temporalTypeNames : List GoString :=
  ["DATE".toList, "DATETIME".toList, "TIMESTAMP".toList, "TIME".toList]

/-- The scan type as the specification words it: the timestamp type when the
cursor reports type names and the name of the column is one of the four temporal
names; otherwise the underlying scan type when the cursor reports scan types;
otherwise the string type. -/
def scanTypeReference (rows : Rows) (i : Int) : ReflectType :=
  if (rows.ColumnTypeDatabaseTypeName.map (fun f => decide (f i ∈ temporalTypeNames)))
      = some true then
    ReflectType.timeTime
  else
    (rows.ColumnTypeScanType.map (fun f => f i)).getD ReflectType.string

/-- The shape `if err != nil { return nil, err }; return wrap(x), nil` on a result:
an error is handed on, a value is wrapped by `f`. -/
def wrapOk {α β : Type} (f : α → β) : Except Error α → Except Error β
  | Except.error err => Except.error err
  | Except.ok a => Except.ok (f a)

/-! ## Example handles -/

/-- A cursor whose type names are lower case and whose own scan type is the
timestamp type. -/
def lowerCaseRows : Rows :=
  { Columns := ["created_at".toList]
    ColumnTypeDatabaseTypeName := some (fun _ => "datetime".toList)
    ColumnTypeScanType := some (fun _ => ReflectType.timeTime) }

/-- A cursor that reports the type name `DATETIME` and text as its scan type, as
the wrapped driver does for a TEXT column. -/
def dateTimeRows : Rows :=
  { Columns := ["created_at".toList]
    ColumnTypeDatabaseTypeName := some (fun _ => "DATETIME".toList)
    ColumnTypeScanType := some (fun _ => ReflectType.string) }

/-- A statement without the context-aware interfaces; the driver state counts the
calls it has served. -/
def plainStmt : Stmt Nat :=
  { Exec := fun args n => (Except.ok { LastInsertId := n, RowsAffected := args.length }, n + 1)
    Query := fun _ n => (Except.ok dateTimeRows, n + 1)
    ExecContext := none
    QueryContext := none }

/-- A statement with the context-aware interfaces. -/
def contextStmt : Stmt Nat :=
  { Exec := fun _ n => (Except.error Error.ErrBadConn, n + 1)
    Query := fun _ n => (Except.error Error.ErrBadConn, n + 1)
    ExecContext := some (fun _ args n =>
      (Except.ok { LastInsertId := n, RowsAffected := args.length }, n + 1))
    QueryContext := some (fun _ _ n => (Except.ok lowerCaseRows, n + 1)) }

/-- A connection with none of the optional interfaces. -/
def bareConn : Conn Nat :=
  { Prepare := fun _ n => (Except.ok plainStmt, n + 1)
    PrepareContext := none
    QueryContext := none
    ExecContext := none
    Ping := none
    ResetSession := none
    IsValid := none }

/-- A connection with all the optional interfaces. -/
def fullConn : Conn Nat :=
  { Prepare := fun _ n => (Except.ok plainStmt, n + 1)
    PrepareContext := some (fun _ _ n => (Except.ok contextStmt, n + 1))
    QueryContext := some (fun _ _ _ n => (Except.ok dateTimeRows, n + 1))
    ExecContext := some (fun _ _ args n =>
      (Except.ok { LastInsertId := n, RowsAffected := args.length }, n + 1))
    Ping := some (fun _ n => (some Error.ErrBadConn, n + 1))
    ResetSession := some (fun _ n => (none, n + 1))
    IsValid := some (fun n => (false, n)) }

/-- A connection whose direct query and execute themselves answer the skip
sentinel. -/
def skippingConn : Conn Nat :=
  { Prepare := fun _ n => (Except.ok plainStmt, n + 1)
    PrepareContext := none
    QueryContext := some (fun _ _ _ n => (Except.error Error.ErrSkip, n + 1))
    ExecContext := some (fun _ _ _ n => (Except.error Error.ErrSkip, n + 1))
    Ping := none
    ResetSession := none
    IsValid := none }

/-- The world before any call. -/
def world0 : World Nat := { drv := 0, calls := [] }

/-- Two named arguments whose names and ordinals disagree with their order. -/
def swappedArgs : List NamedValue :=
  [ { Name := "b".toList, Ordinal := 2, Value := Value.int64 20 },
    { Name := "a".toList, Ordinal := 1, Value := Value.text "x".toList } ]

/-! ## Lemmas on substrings -/

theorem strings.contains_iff_factor (s sub : GoString) :
    strings.Contains s sub = true ↔ sub <:+: s := by
  induction s with
  | nil => simp [strings.Contains]
  | cons c s ih =>
    simp [strings.Contains, strings.HasPrefix, List.infix_cons_iff, ih]

theorem strings.contains_append_left {s sub : GoString} (t : GoString)
    (h : strings.Contains s sub = true) : strings.Contains (s ++ t) sub = true := by
  rw [strings.contains_iff_factor] at h ⊢
  exact h.trans (List.infix_append' [] s t)

theorem strings.contains_append_right (s t sub : GoString)
    (h : strings.Contains t sub = true) : strings.Contains (s ++ t) sub = true := by
  rw [strings.contains_iff_factor] at h ⊢
  exact h.trans (List.suffix_append s t).isInfix

theorem strings.hasPrefix_append_sep {sub : GoString} {sep : Char} (h : sep ∉ sub)
    (u t : GoString) :
    strings.HasPrefix (u ++ sep :: t) sub = strings.HasPrefix u sub := by
  induction sub generalizing u with
  | nil => simp [strings.HasPrefix]
  | cons a sub ih =>
    have ha : a ≠ sep := fun e => h (by simp [e])
    have hs : sep ∉ sub := fun e => h (by simp [e])
    cases u with
    | nil => simp [strings.HasPrefix, List.isPrefixOf, ha]
    | cons b u =>
      have := ih hs u
      simp only [strings.HasPrefix] at this
      simp [strings.HasPrefix, List.isPrefixOf, this]

theorem occurrences_append_sep {sub : GoString} {sep : Char} (h : sep ∉ sub)
    (hne : sub ≠ []) (s t : GoString) :
    occurrences sub (s ++ sep :: t) = occurrences sub s + occurrences sub (sep :: t) := by
  induction s with
  | nil => cases sub with
    | nil => exact absurd rfl hne
    | cons a sub => simp [occurrences]
  | cons c s ih =>
    have hp := strings.hasPrefix_append_sep h (c :: s) t
    simp only [List.cons_append] at hp ⊢
    simp only [occurrences, hp, ih]
    omega

theorem occurrences_eq_zero_iff (sub s : GoString) :
    occurrences sub s = 0 ↔ strings.Contains s sub = false := by
  induction s with
  | nil => cases sub <;> simp [occurrences, strings.Contains]
  | cons c s ih =>
    simp only [occurrences, strings.Contains, Nat.add_eq_zero_iff, ih, Bool.or_eq_false_iff]
    cases strings.HasPrefix (c :: s) sub <;> simp

/-! ## The scan type of a column -/

theorem mem_temporalTypeNames (name : GoString) :
    name ∈ temporalTypeNames ↔
      (name = "DATE".toList ∨ name = "DATETIME".toList ∨ name = "TIMESTAMP".toList
        ∨ name = "TIME".toList) := by
  simp only [temporalTypeNames, List.mem_cons, List.mem_singleton, List.not_mem_nil,
    or_false]

/-- C1: for every wrapped cursor and every column index, `ColumnTypeScanType` is
the reference definition: the timestamp type when the underlying cursor reports
type names and the name is exactly one of DATE, DATETIME, TIMESTAMP, TIME, whatever
the underlying scan type is; otherwise the underlying scan type when the cursor
reports scan types; otherwise the string type. -/
theorem columnTypeScanType_eq_reference (r : wrappedRows) (i : Int) :
    r.ColumnTypeScanType i = scanTypeReference r.rows i := by
  obtain ⟨⟨cols, tn, st⟩⟩ := r
  cases tn with
  | none => cases st <;> simp [wrappedRows.ColumnTypeScanType, scanTypeReference]
  | some f =>
    by_cases h : f i ∈ temporalTypeNames
    · simp only [wrappedRows.ColumnTypeScanType, if_pos ((mem_temporalTypeNames _).1 h)]
      simp [scanTypeReference, h, timeType]
    · simp only [wrappedRows.ColumnTypeScanType,
        if_neg (fun e => h ((mem_temporalTypeNames _).2 e))]
      cases st <;> simp [scanTypeReference, h]

/-- C2, as stated, fails: a cursor reports the type name `datetime`, which is none
of the four names, and the wrapper still answers the timestamp type, because the
underlying scan type it delegates to is the timestamp type. -/
theorem scanType_time_without_temporal_name :
    lowerCaseRows.ColumnTypeDatabaseTypeName.map (fun f => f 0) = some "datetime".toList
      ∧ (wrappedRows.mk lowerCaseRows).ColumnTypeScanType 0 = timeType
      ∧ ¬ ((wrappedRows.mk lowerCaseRows).ColumnTypeScanType 0 = timeType ↔
            "datetime".toList ∈ temporalTypeNames) := by
  decide

/-- C2, amended: for a cursor that reports type names, with `tn i` the name of
column `i`, the wrapper answers the timestamp type exactly when the name is one of
DATE, DATETIME, TIMESTAMP, TIME, or the cursor reports scan types and its own scan
type for the column is the timestamp type. -/
theorem columnTypeScanType_time_iff (rows : Rows) (tn : Int → GoString) (i : Int)
    (h : rows.ColumnTypeDatabaseTypeName = some tn) :
    (wrappedRows.mk rows).ColumnTypeScanType i = timeType ↔
      (tn i ∈ temporalTypeNames ∨
        ∃ f, rows.ColumnTypeScanType = some f ∧ f i = timeType) := by
  obtain ⟨cols, tn0, st⟩ := rows
  simp only at h
  subst h
  by_cases hm : tn i ∈ temporalTypeNames
  · simp only [wrappedRows.ColumnTypeScanType, if_pos ((mem_temporalTypeNames _).1 hm)]
    simp [hm]
  · simp only [wrappedRows.ColumnTypeScanType,
      if_neg (fun e => hm ((mem_temporalTypeNames _).2 e))]
    cases st <;> simp [hm, timeType]

/-- The amended C2 at the `DATETIME` cursor: the name is temporal and the answer
is the timestamp type although the cursor itself says text. -/
theorem columnTypeScanType_time_iff_witness :
    dateTimeRows.ColumnTypeDatabaseTypeName = some (fun _ => "DATETIME".toList)
      ∧ ((wrappedRows.mk dateTimeRows).ColumnTypeScanType 0 = timeType ↔
          ("DATETIME".toList ∈ temporalTypeNames ∨
            ∃ f, dateTimeRows.ColumnTypeScanType = some f ∧ f 0 = timeType)) :=
  ⟨rfl, columnTypeScanType_time_iff dateTimeRows (fun _ => "DATETIME".toList) 0 rfl⟩

/-! ## The positional fallback list -/

theorem positionalValues.loop (rest : List NamedValue) (done : List Value) :
    (rest.enumFrom done.length).foldl (fun values p => values.set p.1 p.2.Value)
        (done ++ List.replicate rest.length Value.null)
      = done ++ rest.map (fun a => a.Value) := by
  induction rest generalizing done with
  | nil => simp
  | cons a rest ih =>
    simp only [List.enumFrom_cons, List.foldl_cons, List.length_cons, List.replicate_succ,
      List.map_cons]
    have hset : (done ++ Value.null :: List.replicate rest.length Value.null).set
        done.length a.Value = (done ++ [a.Value]) ++ List.replicate rest.length Value.null := by
      simp [List.set_append]
    rw [hset]
    have h := ih (done ++ [a.Value])
    simp only [List.length_append, List.length_singleton] at h
    rw [h]
    simp

theorem positionalValues_eq_map (args : List NamedValue) :
    positionalValues args = args.map (fun a => a.Value) := by
  have h := positionalValues.loop args []
  simpa [positionalValues, List.enum] using h

/-! ## Cursors and statements are wrapped -/

theorem wrapOk_eq_ok_iff {α β : Type} (f : α → β) (r : Except Error α) (v : β) :
    wrapOk f r = Except.ok v ↔ ∃ a, r = Except.ok a ∧ v = f a := by
  cases r with
  | error e =>
    constructor
    · intro h
      cases h
    · rintro ⟨a, h, -⟩
      cases h
  | ok a =>
    constructor
    · intro h
      cases h
      exact ⟨a, rfl, rfl⟩
    · rintro ⟨b, h, hv⟩
      cases h
      rw [hv]
      rfl

/-- C3: every cursor-producing operation hands out a wrapped cursor around exactly
the cursor of the underlying call: `wrappedConn.QueryContext`, `wrappedStmt.Query`
and `wrappedStmt.QueryContext` (context-aware branch and positional fallback)
succeed with `v` exactly when the underlying call succeeds with some `rows` and
`v` is the `wrappedRows` around `rows`; `wrappedConn.Prepare` and
`wrappedConn.PrepareContext` succeed with `sv` exactly when the underlying
preparation succeeds with some `st` and `sv` is the `wrappedStmt` around `st`. -/
theorem cursors_are_wrapped {σ : Type} (c : wrappedConn σ) (s : wrappedStmt σ)
    (ctx : Context) (query : GoString) (nargs : List NamedValue) (args : List Value)
    (w : World σ) (v : RowsValue) (sv : StmtValue σ) :
    ((c.QueryContext ctx query nargs w).1 = Except.ok v ↔
        ∃ qc rows, c.conn.QueryContext = some qc
          ∧ (qc ctx query nargs w.drv).1 = Except.ok rows
          ∧ v = RowsValue.wrapped { rows := rows })
    ∧ ((s.Query args w).1 = Except.ok v ↔
        ∃ rows, (s.stmt.Query args w.drv).1 = Except.ok rows
          ∧ v = RowsValue.wrapped { rows := rows })
    ∧ (∀ sc, s.stmt.QueryContext = some sc →
        ((s.QueryContext ctx nargs w).1 = Except.ok v ↔
          ∃ rows, (sc ctx nargs w.drv).1 = Except.ok rows
            ∧ v = RowsValue.wrapped { rows := rows }))
    ∧ (s.stmt.QueryContext = none →
        ((s.QueryContext ctx nargs w).1 = Except.ok v ↔
          ∃ rows, (s.stmt.Query (positionalValues nargs) w.drv).1 = Except.ok rows
            ∧ v = RowsValue.wrapped { rows := rows }))
    ∧ ((c.Prepare query w).1 = Except.ok sv ↔
        ∃ st, (c.conn.Prepare query w.drv).1 = Except.ok st
          ∧ sv = StmtValue.wrapped { stmt := st })
    ∧ ((c.PrepareContext ctx query w).1 = Except.ok sv ↔
        ∃ st, sv = StmtValue.wrapped { stmt := st }
          ∧ (match c.conn.PrepareContext with
             | some pc => (pc ctx query w.drv).1 = Except.ok st
             | none => (c.conn.Prepare query w.drv).1 = Except.ok st)) := by
  refine ⟨?_, ?_, ?_, ?_, ?_, ?_⟩
  · cases hq : c.conn.QueryContext with
    | none =>
      constructor
      · intro h
        simp only [wrappedConn.QueryContext, hq] at h
        cases h
      · rintro ⟨qc, rows, h1, -⟩
        cases h1
    | some qc =>
      have e : (c.QueryContext ctx query nargs w).1
          = wrapOk (fun rows => RowsValue.wrapped { rows := rows })
              (qc ctx query nargs w.drv).1 := by
        simp only [wrappedConn.QueryContext, hq, World.call]
        generalize (qc ctx query nargs w.drv).1 = r
        cases r <;> rfl
      rw [e, wrapOk_eq_ok_iff]
      constructor
      · rintro ⟨rows, h1, h2⟩
        exact ⟨qc, rows, rfl, h1, h2⟩
      · rintro ⟨qc2, rows, h1, h2, h3⟩
        cases h1
        exact ⟨rows, h2, h3⟩
  · have e : (s.Query args w).1
        = wrapOk (fun rows => RowsValue.wrapped { rows := rows })
            (s.stmt.Query args w.drv).1 := by
      simp only [wrappedStmt.Query, World.call]
      generalize (s.stmt.Query args w.drv).1 = r
      cases r <;> rfl
    rw [e, wrapOk_eq_ok_iff]
  · intro sc hsc
    have e : (s.QueryContext ctx nargs w).1
        = wrapOk (fun rows => RowsValue.wrapped { rows := rows })
            (sc ctx nargs w.drv).1 := by
      simp only [wrappedStmt.QueryContext, hsc, World.call]
      generalize (sc ctx nargs w.drv).1 = r
      cases r <;> rfl
    rw [e, wrapOk_eq_ok_iff]
  · intro hsc
    have e : (s.QueryContext ctx nargs w).1
        = wrapOk (fun rows => RowsValue.wrapped { rows := rows })
            (s.stmt.Query (positionalValues nargs) w.drv).1 := by
      simp only [wrappedStmt.QueryContext, hsc, World.call]
      generalize (s.stmt.Query (positionalValues nargs) w.drv).1 = r
      cases r <;> rfl
    rw [e, wrapOk_eq_ok_iff]
  · have e : (c.Prepare query w).1
        = wrapOk (fun st => StmtValue.wrapped { stmt := st })
            (c.conn.Prepare query w.drv).1 := by
      simp only [wrappedConn.Prepare, World.call]
      generalize (c.conn.Prepare query w.drv).1 = r
      cases r <;> rfl
    rw [e, wrapOk_eq_ok_iff]
  · cases hp : c.conn.PrepareContext with
    | none =>
      have e : (c.PrepareContext ctx query w).1
          = wrapOk (fun st => StmtValue.wrapped { stmt := st })
              (c.conn.Prepare query w.drv).1 := by
        simp only [wrappedConn.PrepareContext, hp, wrappedConn.Prepare, World.call]
        generalize (c.conn.Prepare query w.drv).1 = r
        cases r <;> rfl
      rw [e, wrapOk_eq_ok_iff]
      constructor
      · rintro ⟨st, h1, h2⟩
        exact ⟨st, h2, h1⟩
      · rintro ⟨st, h1, h2⟩
        exact ⟨st, h2, h1⟩
    | some pc =>
      have e : (c.PrepareContext ctx query w).1
          = wrapOk (fun st => StmtValue.wrapped { stmt := st })
              (pc ctx query w.drv).1 := by
        simp only [wrappedConn.PrepareContext, hp, World.call]
        generalize (pc ctx query w.drv).1 = r
        cases r <;> rfl
      rw [e, wrapOk_eq_ok_iff]
      constructor
      · rintro ⟨st, h1, h2⟩
        exact ⟨st, h2, h1⟩
      · rintro ⟨st, h1, h2⟩
        exact ⟨st, h2, h1⟩

/-- C3 at the example handles: the direct query of a connection with every
interface, and the fallback query of a statement without the context-aware ones,
both hand out the wrapped `DATETIME` cursor. -/
theorem cursors_are_wrapped_witness :
    ((wrappedConn.mk fullConn).QueryContext { id := 1 } "SELECT 1".toList [] world0).1
        = Except.ok (RowsValue.wrapped { rows := dateTimeRows })
    ∧ (plainStmt.QueryContext = none
        ∧ ((wrappedStmt.mk plainStmt).QueryContext { id := 1 } swappedArgs world0).1
          = Except.ok (RowsValue.wrapped { rows := dateTimeRows })) :=
  ⟨(cursors_are_wrapped (wrappedConn.mk fullConn) (wrappedStmt.mk plainStmt) { id := 1 }
      "SELECT 1".toList [] [] world0 (RowsValue.wrapped { rows := dateTimeRows })
      (StmtValue.wrapped { stmt := plainStmt })).1.2 ⟨_, _, rfl, rfl, rfl⟩,
   rfl,
   ((cursors_are_wrapped (wrappedConn.mk fullConn) (wrappedStmt.mk plainStmt) { id := 1 }
      "SELECT 1".toList swappedArgs [] world0 (RowsValue.wrapped { rows := dateTimeRows })
      (StmtValue.wrapped { stmt := plainStmt })).2.2.2.1 rfl).2 ⟨_, rfl, rfl⟩⟩

/-! ## The skip sentinel -/

/-- C4: when the underlying connection has no context-aware direct query (resp.
execute), `wrappedConn.QueryContext` (resp. `ExecContext`) returns the error
`driver.ErrSkip` with no result and leaves the world as it was: no call is logged
and the driver state is untouched.  When the interface is there, the wrapper
returns `driver.ErrSkip` only if the underlying call returned it. -/
theorem skip_sentinel_when_unsupported {σ : Type} (c : wrappedConn σ) (ctx : Context)
    (query : GoString) (args : List NamedValue) (w : World σ) :
    (c.conn.QueryContext = none →
        c.QueryContext ctx query args w = (Except.error Error.ErrSkip, w))
    ∧ (c.conn.ExecContext = none →
        c.ExecContext ctx query args w = (Except.error Error.ErrSkip, w))
    ∧ (∀ qc, c.conn.QueryContext = some qc →
        (c.QueryContext ctx query args w).1 = Except.error Error.ErrSkip →
        (qc ctx query args w.drv).1 = Except.error Error.ErrSkip)
    ∧ (∀ ec, c.conn.ExecContext = some ec →
        (c.ExecContext ctx query args w).1 = Except.error Error.ErrSkip →
        (ec ctx query args w.drv).1 = Except.error Error.ErrSkip) := by
  refine ⟨?_, ?_, ?_, ?_⟩
  · intro h
    simp only [wrappedConn.QueryContext, h]
  · intro h
    simp only [wrappedConn.ExecContext, h]
  · intro qc h
    simp only [wrappedConn.QueryContext, h, World.call]
    generalize (qc ctx query args w.drv).1 = r
    cases r with
    | error e =>
      intro h
      have he : e = Error.ErrSkip := Except.error.inj h
      rw [he]
    | ok rows =>
      intro h
      cases h
  · intro ec h
    simp only [wrappedConn.ExecContext, h, World.call]
    exact fun h => h

/-- C4 at the example handles: the bare connection answers the sentinel and the
world is unchanged; the connection whose own direct query and execute answer the
sentinel shows the other half. -/
theorem skip_sentinel_when_unsupported_witness :
    (bareConn.QueryContext = none ∧
      (wrappedConn.mk bareConn).QueryContext { id := 1 } "SELECT 1".toList [] world0
        = (Except.error Error.ErrSkip, world0))
    ∧ (bareConn.ExecContext = none ∧
      (wrappedConn.mk bareConn).ExecContext { id := 1 } "SELECT 1".toList [] world0
        = (Except.error Error.ErrSkip, world0))
    ∧ (((wrappedConn.mk skippingConn).QueryContext { id := 1 } "SELECT 1".toList []
          world0).1 = Except.error Error.ErrSkip
        ∧ ((fun (_ : Context) (_ : GoString) (_ : List NamedValue) (n : Nat) =>
            ((Except.error Error.ErrSkip : Except Error Rows), n + 1))
              { id := 1 } "SELECT 1".toList [] world0.drv).1 = Except.error Error.ErrSkip)
    ∧ (((wrappedConn.mk skippingConn).ExecContext { id := 1 } "SELECT 1".toList []
          world0).1 = Except.error Error.ErrSkip
        ∧ ((fun (_ : Context) (_ : GoString) (_ : List NamedValue) (n : Nat) =>
            ((Except.error Error.ErrSkip : Except Error Result), n + 1))
              { id := 1 } "SELECT 1".toList [] world0.drv).1 = Except.error Error.ErrSkip) :=
  ⟨⟨rfl, (skip_sentinel_when_unsupported (wrappedConn.mk bareConn) { id := 1 }
      "SELECT 1".toList [] world0).1 rfl⟩,
   ⟨rfl, (skip_sentinel_when_unsupported (wrappedConn.mk bareConn) { id := 1 }
      "SELECT 1".toList [] world0).2.1 rfl⟩,
   ⟨rfl, (skip_sentinel_when_unsupported (wrappedConn.mk skippingConn) { id := 1 }
      "SELECT 1".toList [] world0).2.2.1 _ rfl rfl⟩,
   ⟨rfl, (skip_sentinel_when_unsupported (wrappedConn.mk skippingConn) { id := 1 }
      "SELECT 1".toList [] world0).2.2.2 _ rfl rfl⟩⟩

/-! ## Optional capabilities of a connection -/

/-- C5: when the underlying connection lacks the capability, `Ping` and
`ResetSession` return nil and `IsValid` returns true, with the world unchanged;
when it has the capability the wrapper returns what the one underlying call
returns; and the answer of each of the three depends on the connection only
through that one capability, whatever the other capabilities are. -/
theorem optional_capability_defaults {σ : Type} (c d : wrappedConn σ) (ctx : Context)
    (w : World σ) :
    (c.conn.Ping = none → c.Ping ctx w = (none, w))
    ∧ (c.conn.ResetSession = none → c.ResetSession ctx w = (none, w))
    ∧ (c.conn.IsValid = none → c.IsValid w = (true, w))
    ∧ (∀ p, c.conn.Ping = some p →
        c.Ping ctx w
          = ((p ctx w.drv).1,
              { drv := (p ctx w.drv).2, calls := w.calls ++ [Call.ConnPing ctx] }))
    ∧ (∀ rs, c.conn.ResetSession = some rs →
        c.ResetSession ctx w
          = ((rs ctx w.drv).1,
              { drv := (rs ctx w.drv).2, calls := w.calls ++ [Call.ConnResetSession ctx] }))
    ∧ (∀ v, c.conn.IsValid = some v →
        c.IsValid w
          = ((v w.drv).1, { drv := (v w.drv).2, calls := w.calls ++ [Call.ConnIsValid] }))
    ∧ (c.conn.Ping = d.conn.Ping → c.Ping ctx w = d.Ping ctx w)
    ∧ (c.conn.ResetSession = d.conn.ResetSession →
        c.ResetSession ctx w = d.ResetSession ctx w)
    ∧ (c.conn.IsValid = d.conn.IsValid → c.IsValid w = d.IsValid w) := by
  refine ⟨?_, ?_, ?_, ?_, ?_, ?_, ?_, ?_, ?_⟩
  · intro h
    simp only [wrappedConn.Ping, h]
  · intro h
    simp only [wrappedConn.ResetSession, h]
  · intro h
    simp only [wrappedConn.IsValid, h]
  · intro p h
    simp only [wrappedConn.Ping, h, World.call]
  · intro rs h
    simp only [wrappedConn.ResetSession, h, World.call]
  · intro v h
    simp only [wrappedConn.IsValid, h, World.call]
  · intro h
    simp only [wrappedConn.Ping, h]
  · intro h
    simp only [wrappedConn.ResetSession, h]
  · intro h
    simp only [wrappedConn.IsValid, h]

/-- C5 at the example handles: the bare connection gives the three defaults; the
connection with every interface gives the error of its own `Ping` and the `false`
of its own `IsValid`; and the connection that has direct query and execute but no
`Ping` still pings with success. -/
theorem optional_capability_defaults_witness :
    (bareConn.Ping = none
      ∧ (wrappedConn.mk bareConn).Ping { id := 1 } world0 = (none, world0))
    ∧ (bareConn.ResetSession = none
      ∧ (wrappedConn.mk bareConn).ResetSession { id := 1 } world0 = (none, world0))
    ∧ (bareConn.IsValid = none ∧ (wrappedConn.mk bareConn).IsValid world0 = (true, world0))
    ∧ (wrappedConn.mk fullConn).Ping { id := 1 } world0
        = (some Error.ErrBadConn, { drv := 1, calls := [Call.ConnPing { id := 1 }] })
    ∧ (wrappedConn.mk fullConn).IsValid world0
        = (false, { drv := 0, calls := [Call.ConnIsValid] })
    ∧ (skippingConn.Ping = bareConn.Ping
      ∧ (wrappedConn.mk skippingConn).Ping { id := 1 } world0
          = (wrappedConn.mk bareConn).Ping { id := 1 } world0) :=
  ⟨⟨rfl, (optional_capability_defaults (wrappedConn.mk bareConn) (wrappedConn.mk fullConn)
      { id := 1 } world0).1 rfl⟩,
   ⟨rfl, (optional_capability_defaults (wrappedConn.mk bareConn) (wrappedConn.mk fullConn)
      { id := 1 } world0).2.1 rfl⟩,
   ⟨rfl, (optional_capability_defaults (wrappedConn.mk bareConn) (wrappedConn.mk fullConn)
      { id := 1 } world0).2.2.1 rfl⟩,
   (optional_capability_defaults (wrappedConn.mk fullConn) (wrappedConn.mk bareConn)
      { id := 1 } world0).2.2.2.1 _ rfl,
   (optional_capability_defaults (wrappedConn.mk fullConn) (wrappedConn.mk bareConn)
      { id := 1 } world0).2.2.2.2.2.1 _ rfl,
   ⟨rfl, (optional_capability_defaults (wrappedConn.mk skippingConn) (wrappedConn.mk bareConn)
      { id := 1 } world0).2.2.2.2.2.2.1 rfl⟩⟩

/-! ## The positional fallback of a statement -/

/-- C6: on a statement without context-aware execute (resp. query), for every list
`A` of named arguments the wrapper makes exactly one call, the non-context `Exec`
(resp. `Query`), with the list of the values of `A` in the order of `A`: same
length, entry `i` is the value of argument `i`, names and ordinals play no part.
`ExecContext` returns the result or error of that call as it is, `QueryContext`
returns its error as it is and its cursor wrapped. -/
theorem positional_fallback {σ : Type} (s : wrappedStmt σ) (ctx : Context)
    (A : List NamedValue) (w : World σ) :
    (s.stmt.ExecContext = none →
        s.ExecContext ctx A w
          = ((s.stmt.Exec (A.map (fun a => a.Value)) w.drv).1,
              { drv := (s.stmt.Exec (A.map (fun a => a.Value)) w.drv).2,
                calls := w.calls ++ [Call.StmtExec (A.map (fun a => a.Value))] }))
    ∧ (s.stmt.QueryContext = none →
        s.QueryContext ctx A w
          = (wrapOk (fun rows => RowsValue.wrapped { rows := rows })
                (s.stmt.Query (A.map (fun a => a.Value)) w.drv).1,
              { drv := (s.stmt.Query (A.map (fun a => a.Value)) w.drv).2,
                calls := w.calls ++ [Call.StmtQuery (A.map (fun a => a.Value))] }))
    ∧ (positionalValues A).length = A.length
    ∧ (∀ i (h : i < A.length), (positionalValues A)[i]? = some (A.get ⟨i, h⟩).Value) := by
  refine ⟨?_, ?_, ?_, ?_⟩
  · intro h
    simp only [wrappedStmt.ExecContext, h, World.call, positionalValues_eq_map]
  · intro h
    simp only [wrappedStmt.QueryContext, h, World.call, positionalValues_eq_map]
    generalize (s.stmt.Query (A.map (fun a => a.Value)) w.drv).1 = r
    cases r <;> rfl
  · simp [positionalValues_eq_map]
  · intro i h
    simp [positionalValues_eq_map, h]

/-- C6 at the example statement and two arguments whose names and ordinals are in
the opposite order: `Exec` and `Query` are called once with the values in the
order given. -/
theorem positional_fallback_witness :
    (plainStmt.ExecContext = none
      ∧ (wrappedStmt.mk plainStmt).ExecContext { id := 7 } swappedArgs world0
          = (Except.ok { LastInsertId := 0, RowsAffected := 2 },
              { drv := 1
                calls := [Call.StmtExec [Value.int64 20, Value.text "x".toList]] }))
    ∧ (plainStmt.QueryContext = none
      ∧ (wrappedStmt.mk plainStmt).QueryContext { id := 7 } swappedArgs world0
          = (Except.ok (RowsValue.wrapped { rows := dateTimeRows }),
              { drv := 1
                calls := [Call.StmtQuery [Value.int64 20, Value.text "x".toList]] })) :=
  ⟨⟨rfl, (positional_fallback (wrappedStmt.mk plainStmt) { id := 7 } swappedArgs
      world0).1 rfl⟩,
   ⟨rfl, (positional_fallback (wrappedStmt.mk plainStmt) { id := 7 } swappedArgs
      world0).2.1 rfl⟩⟩

/-! ## Normalisation of the connection string -/

theorem injectDSNParams.step_present {dsn param : GoString}
    (h : strings.Contains dsn param = true) : injectDSNParams.step dsn param = dsn := by
  simp only [injectDSNParams.step, h, if_true]

theorem injectDSNParams.step_question {dsn param : GoString}
    (h : strings.Contains dsn param = false) (hq : strings.Contains dsn ['?'] = false) :
    injectDSNParams.step dsn param = dsn ++ '?' :: (param ++ ['=', '1']) := by
  have e : strings.Contains dsn "?".toList = false := hq
  simp only [injectDSNParams.step, h, e]
  rfl

theorem injectDSNParams.step_ampersand {dsn param : GoString}
    (h : strings.Contains dsn param = false) (hq : strings.Contains dsn ['?'] = true) :
    injectDSNParams.step dsn param = dsn ++ '&' :: (param ++ ['=', '1']) := by
  have e : strings.Contains dsn "?".toList = true := hq
  simp only [injectDSNParams.step, h, e]
  rfl

theorem injectDSNParams.step_cases (dsn param : GoString) :
    injectDSNParams.step dsn param = dsn
      ∨ injectDSNParams.step dsn param = dsn ++ '?' :: (param ++ ['=', '1'])
      ∨ injectDSNParams.step dsn param = dsn ++ '&' :: (param ++ ['=', '1']) := by
  cases h : strings.Contains dsn param with
  | true => exact Or.inl (injectDSNParams.step_present h)
  | false =>
    cases hq : strings.Contains dsn ['?'] with
    | true => exact Or.inr (Or.inr (injectDSNParams.step_ampersand h hq))
    | false => exact Or.inr (Or.inl (injectDSNParams.step_question h hq))

theorem strings.contains_append_key (dsn param tail : GoString) (sep : Char) :
    strings.Contains (dsn ++ sep :: (param ++ tail)) param = true := by
  rw [strings.contains_iff_factor]
  exact ⟨dsn ++ [sep], tail, by simp⟩

theorem injectDSNParams.contains_step_self (dsn param : GoString) :
    strings.Contains (injectDSNParams.step dsn param) param = true := by
  cases h : strings.Contains dsn param with
  | true => rw [injectDSNParams.step_present h, h]
  | false =>
    cases hq : strings.Contains dsn ['?'] with
    | true =>
      rw [injectDSNParams.step_ampersand h hq]
      exact strings.contains_append_key _ _ _ _
    | false =>
      rw [injectDSNParams.step_question h hq]
      exact strings.contains_append_key _ _ _ _

theorem injectDSNParams.contains_step_mono {dsn sub : GoString} (param : GoString)
    (h : strings.Contains dsn sub = true) :
    strings.Contains (injectDSNParams.step dsn param) sub = true := by
  rcases injectDSNParams.step_cases dsn param with e | e | e
  · rw [e]
    exact h
  · rw [e]
    exact strings.contains_append_left _ h
  · rw [e]
    exact strings.contains_append_left _ h

theorem injectDSNParams_eq_steps (S : GoString) :
    injectDSNParams S
      = injectDSNParams.step (injectDSNParams.step S "_texttotime".toList)
          "_inttotime".toList := rfl

theorem strings.not_contains_append_sep {sub : GoString} {sep : Char} (h : sep ∉ sub)
    (hne : sub ≠ []) {s : GoString} (t : GoString)
    (hs : strings.Contains s sub = false)
    (ht : occurrences sub (sep :: t) = 0) :
    strings.Contains (s ++ sep :: t) sub = false := by
  rw [← occurrences_eq_zero_iff, occurrences_append_sep h hne, ht,
    (occurrences_eq_zero_iff sub s).2 hs]

/-- C7, evaluated: the claim asks for both flags among the parameter keys of every
normalised string.  For a file name that contains `_inttotime` the code appends
only `_texttotime`, and for a parameter `x_texttotime` it appends only
`_inttotime`; in each result one of the two flags is no parameter key. -/
theorem injectDSNParams_flag_missing :
    injectDSNParams "file:my_inttotime.db".toList
        = "file:my_inttotime.db?_texttotime=1".toList
    ∧ paramKeys (injectDSNParams "file:my_inttotime.db".toList) = ["_texttotime".toList]
    ∧ "_inttotime".toList ∉ paramKeys (injectDSNParams "file:my_inttotime.db".toList)
    ∧ injectDSNParams "file:a.db?x_texttotime=1".toList
        = "file:a.db?x_texttotime=1&_inttotime=1".toList
    ∧ "_texttotime".toList ∉ paramKeys (injectDSNParams "file:a.db?x_texttotime=1".toList) := by
  decide

/-- C8: for a connection string `S` that contains neither flag key,
`injectDSNParams S` is `S` followed by `?_texttotime=1&_inttotime=1` when `S` has no
`?`, and `S` followed by `&_texttotime=1&_inttotime=1` when it has one; either way
each of the two keys occurs exactly once in the result. -/
theorem injectDSNParams_fresh (S : GoString)
    (h1 : strings.Contains S "_texttotime".toList = false)
    (h2 : strings.Contains S "_inttotime".toList = false) :
    (strings.Contains S "?".toList = false →
        injectDSNParams S = S ++ "?_texttotime=1&_inttotime=1".toList)
    ∧ (strings.Contains S "?".toList = true →
        injectDSNParams S = S ++ "&_texttotime=1&_inttotime=1".toList)
    ∧ occurrences "_texttotime".toList (injectDSNParams S) = 1
    ∧ occurrences "_inttotime".toList (injectDSNParams S) = 1 := by
  have noq : strings.Contains S "?".toList = false →
      injectDSNParams S = S ++ "?_texttotime=1&_inttotime=1".toList := by
    intro hq
    have e1 := injectDSNParams.step_question h1 hq
    have c2 : strings.Contains (S ++ '?' :: ("_texttotime".toList ++ ['=', '1']))
        "_inttotime".toList = false :=
      strings.not_contains_append_sep (by decide) (by decide) _ h2 (by decide)
    have cq : strings.Contains (S ++ '?' :: ("_texttotime".toList ++ ['=', '1'])) ['?']
        = true := strings.contains_append_right _ _ _ (by decide)
    rw [injectDSNParams_eq_steps, e1, injectDSNParams.step_ampersand c2 cq,
      List.append_assoc]
    rfl
  have amp : strings.Contains S "?".toList = true →
      injectDSNParams S = S ++ "&_texttotime=1&_inttotime=1".toList := by
    intro hq
    have e1 := injectDSNParams.step_ampersand h1 hq
    have c2 : strings.Contains (S ++ '&' :: ("_texttotime".toList ++ ['=', '1']))
        "_inttotime".toList = false :=
      strings.not_contains_append_sep (by decide) (by decide) _ h2 (by decide)
    have cq : strings.Contains (S ++ '&' :: ("_texttotime".toList ++ ['=', '1'])) ['?']
        = true := strings.contains_append_left _ hq
    rw [injectDSNParams_eq_steps, e1, injectDSNParams.step_ampersand c2 cq,
      List.append_assoc]
    rfl
  have z1 := (occurrences_eq_zero_iff "_texttotime".toList S).2 h1
  have z2 := (occurrences_eq_zero_iff "_inttotime".toList S).2 h2
  refine ⟨noq, amp, ?_, ?_⟩
  · cases hq : strings.Contains S "?".toList with
    | false =>
      rw [noq hq]
      have e := @occurrences_append_sep "_texttotime".toList '?'
        (by decide) (by decide) S "_texttotime=1&_inttotime=1".toList
      have e0 : S ++ "?_texttotime=1&_inttotime=1".toList
          = S ++ '?' :: "_texttotime=1&_inttotime=1".toList := rfl
      rw [e0, e, z1]
      decide
    | true =>
      rw [amp hq]
      have e := @occurrences_append_sep "_texttotime".toList '&'
        (by decide) (by decide) S "_texttotime=1&_inttotime=1".toList
      have e0 : S ++ "&_texttotime=1&_inttotime=1".toList
          = S ++ '&' :: "_texttotime=1&_inttotime=1".toList := rfl
      rw [e0, e, z1]
      decide
  · cases hq : strings.Contains S "?".toList with
    | false =>
      rw [noq hq]
      have e := @occurrences_append_sep "_inttotime".toList '?'
        (by decide) (by decide) S "_texttotime=1&_inttotime=1".toList
      have e0 : S ++ "?_texttotime=1&_inttotime=1".toList
          = S ++ '?' :: "_texttotime=1&_inttotime=1".toList := rfl
      rw [e0, e, z2]
      decide
    | true =>
      rw [amp hq]
      have e := @occurrences_append_sep "_inttotime".toList '&'
        (by decide) (by decide) S "_texttotime=1&_inttotime=1".toList
      have e0 : S ++ "&_texttotime=1&_inttotime=1".toList
          = S ++ '&' :: "_texttotime=1&_inttotime=1".toList := rfl
      rw [e0, e, z2]
      decide

/-- C8 at `file:a.db`, which has neither key and no `?`. -/
theorem injectDSNParams_fresh_witness :
    strings.Contains "file:a.db".toList "_texttotime".toList = false
    ∧ strings.Contains "file:a.db".toList "_inttotime".toList = false
    ∧ strings.Contains "file:a.db".toList "?".toList = false
    ∧ injectDSNParams "file:a.db".toList
        = "file:a.db".toList ++ "?_texttotime=1&_inttotime=1".toList
    ∧ occurrences "_texttotime".toList (injectDSNParams "file:a.db".toList) = 1
    ∧ occurrences "_inttotime".toList (injectDSNParams "file:a.db".toList) = 1 :=
  ⟨by decide, by decide, by decide,
    (injectDSNParams_fresh "file:a.db".toList (by decide) (by decide)).1 (by decide),
    (injectDSNParams_fresh "file:a.db".toList (by decide) (by decide)).2.2.1,
    (injectDSNParams_fresh "file:a.db".toList (by decide) (by decide)).2.2.2⟩

theorem injectDSNParams.occurrences_step {k param : GoString} (dsn : GoString)
    (hq : '?' ∉ k) (ha : '&' ∉ k) (hne : k ≠ [])
    (zq : occurrences k ('?' :: (param ++ ['=', '1'])) = 0)
    (za : occurrences k ('&' :: (param ++ ['=', '1'])) = 0) :
    occurrences k (injectDSNParams.step dsn param) = occurrences k dsn := by
  rcases injectDSNParams.step_cases dsn param with e | e | e
  · rw [e]
  · rw [e, occurrences_append_sep hq hne, zq, Nat.add_zero]
  · rw [e, occurrences_append_sep ha hne, za, Nat.add_zero]

/-- C9: for each of the two flag keys `k`, when the connection string `S` already
contains `k` as a substring, `k` occurs in `injectDSNParams S` as many times as
in `S`; and when `S` contains both keys, `injectDSNParams S` is `S`. -/
theorem injectDSNParams_no_duplicate (S : GoString) :
    (strings.Contains S "_texttotime".toList = true →
        occurrences "_texttotime".toList (injectDSNParams S)
          = occurrences "_texttotime".toList S)
    ∧ (strings.Contains S "_inttotime".toList = true →
        occurrences "_inttotime".toList (injectDSNParams S)
          = occurrences "_inttotime".toList S)
    ∧ (strings.Contains S "_texttotime".toList = true →
        strings.Contains S "_inttotime".toList = true → injectDSNParams S = S) := by
  refine ⟨?_, ?_, ?_⟩
  · intro h
    rw [injectDSNParams_eq_steps, injectDSNParams.step_present h]
    exact injectDSNParams.occurrences_step S (by decide) (by decide) (by decide)
      (by decide) (by decide)
  · intro h
    have hc := injectDSNParams.contains_step_mono "_texttotime".toList h
    rw [injectDSNParams_eq_steps, injectDSNParams.step_present hc]
    exact injectDSNParams.occurrences_step S (by decide) (by decide) (by decide)
      (by decide) (by decide)
  · intro h1 h2
    rw [injectDSNParams_eq_steps, injectDSNParams.step_present h1,
      injectDSNParams.step_present h2]

/-- C9 at a string that sets `_inttotime=0` twice and has no `_texttotime`: the
two occurrences stay two; and a string with both keys is returned as it is. -/
theorem injectDSNParams_no_duplicate_witness :
    strings.Contains "a.db?_inttotime=0&_inttotime=0".toList "_inttotime".toList = true
    ∧ occurrences "_inttotime".toList
        (injectDSNParams "a.db?_inttotime=0&_inttotime=0".toList) = 2
    ∧ occurrences "_inttotime".toList "a.db?_inttotime=0&_inttotime=0".toList = 2
    ∧ injectDSNParams "a.db?_inttotime=0&_texttotime=0".toList
        = "a.db?_inttotime=0&_texttotime=0".toList :=
  ⟨by decide,
    ((injectDSNParams_no_duplicate "a.db?_inttotime=0&_inttotime=0".toList).2.1
      (by decide)).trans (by decide),
    by decide,
    (injectDSNParams_no_duplicate "a.db?_inttotime=0&_texttotime=0".toList).2.2
      (by decide) (by decide)⟩

/-- C10: normalisation is idempotent: `injectDSNParams (injectDSNParams S)` is
`injectDSNParams S` for every connection string `S`. -/
theorem injectDSNParams_idempotent (S : GoString) :
    injectDSNParams (injectDSNParams S) = injectDSNParams S := by
  have c1 : strings.Contains (injectDSNParams S) "_texttotime".toList = true := by
    rw [injectDSNParams_eq_steps]
    exact injectDSNParams.contains_step_mono _ (injectDSNParams.contains_step_self S _)
  have c2 : strings.Contains (injectDSNParams S) "_inttotime".toList = true := by
    rw [injectDSNParams_eq_steps]
    exact injectDSNParams.contains_step_self _ _
  rw [injectDSNParams_eq_steps (injectDSNParams S), injectDSNParams.step_present c1,
    injectDSNParams.step_present c2]

end Sqlite
